import Mathlib

/-!
Verification of the `dstore` Google-Storage store (`gsstore.go`).

Strings are embedded as `List Char` (Go strings are flat character
sequences for the operations used here).  The Go standard-library helpers
used by the store (`strings.TrimLeft`, `strings.TrimPrefix`,
`strings.TrimSuffix`, `path.Clean`, `path.Join`, `filepath.Join` on a
slash-separated platform) are translated below; the Google Cloud Storage
client is an external collaborator and is modelled from the spec as an
error-free listing over a bucket of keys.  Effects (backend outcomes,
callback invocations) are passed and returned explicitly.
-/

namespace DStore

/-- Go strings, embedded as lists of characters. -/
abbrev Str := List Char

/-- Convert a Lean string literal to the embedding type. -/
def str (s : String) : Str := s.toList

/-- Go `strings.TrimLeft(s, "/")`: drop all leading slash characters. -/
def trimLeftSlash (s : Str) : Str := s.dropWhile (fun c => c = '/')

/-- Go `strings.HasPrefix(s, p)`. -/
def hasPrefixStr (s p : Str) : Bool := p.isPrefixOf s

/-- Go `strings.HasSuffix(s, suf)`. -/
def hasSuffixStr (s suf : Str) : Bool := suf.isSuffixOf s

/-- Go `strings.TrimPrefix(s, p)`: remove `p` from the front when present. -/
def trimPrefixStr (s p : Str) : Str :=
  if hasPrefixStr s p then s.drop p.length else s

/-- Go `strings.TrimSuffix(s, suf)`: remove `suf` from the end when present. -/
def trimSuffixStr (s suf : Str) : Str :=
  if hasSuffixStr s suf then s.take (s.length - suf.length) else s

/-- Split a path on the slash separator; `"a//b"` gives `["a","","b"]`. -/
def splitSlash : Str → List Str
  | [] => [[]]
  | c :: cs =>
    match splitSlash cs with
    | seg :: rest => if c = '/' then [] :: seg :: rest else (c :: seg) :: rest
    | [] => if c = '/' then [[], []] else [[c]]

/-- One step of Go `path.Clean`'s element processing, on a reversed stack of
kept elements: empty and `.` elements are dropped; `..` pops a kept
non-`..` element, is dropped at the root of a rooted path, and is kept
otherwise; every other element is kept. -/
def cleanPush (rooted : Bool) (stack : List Str) (seg : Str) : List Str :=
  if seg = [] ∨ seg = ['.'] then stack
  else if seg = ['.', '.'] then
    match stack with
    | top :: rest => if top = ['.', '.'] then seg :: top :: rest else rest
    | [] => if rooted then [] else [seg]
  else seg :: stack

/-- Join path elements with the slash separator. -/
def joinSegs : List Str → Str
  | [] => []
  | [s] => s
  | s :: rest => s ++ '/' :: joinSegs rest

/-- Go `path.Clean`: shortest lexical equivalent of a path (single slashes,
no `.` elements, `..` resolved, `..` at the root of a rooted path erased;
the empty path cleans to `"."`). -/
def pathClean (p : Str) : Str :=
  match p with
  | [] => ['.']
  | c :: _ =>
    let rooted := c = '/'
    let segs := (((splitSlash p).foldl (cleanPush rooted) []).reverse)
    let out := joinSegs segs
    if rooted then '/' :: out
    else if out = [] then ['.'] else out

/-- Go `path.Join(a, b)`: drop empty elements, join with a slash, clean;
all-empty input gives the empty path. -/
def pathJoin (a b : Str) : Str :=
  if a = [] then (if b = [] then [] else pathClean b)
  else pathClean (a ++ '/' :: b)

/-- Go `filepath.Join(a, b)` on the slash-separated target platform, where
it agrees with `path.Join`. -/
def filepathJoin (a b : Str) : Str := pathJoin a b

/-- Lexicographic (byte-wise) order on keys, the backend's native key
order used for `StartOffset` comparisons. -/
def strLt : Str → Str → Bool
  | _, [] => false
  | [], _ :: _ => true
  | a :: as, b :: bs => if a < b then true else if b < a then false else strLt as bs

/-- Go error values reaching the store: the repository's sentinels
(`StopIteration`, `ErrNotFound`), the storage client's
`storage.ErrObjectNotExist` sentinel, `*googleapi.Error` with its HTTP
status code, and any other error. -/
inductive GoErr where
  | stopIteration : GoErr
  | notFound : GoErr
  | objectNotExist : GoErr
  | googleapi (code : Nat) : GoErr
  | other (msg : Str) : GoErr
deriving DecidableEq

/-- Go `http.StatusPreconditionFailed`. -/
def statusPreconditionFailed : Nat := 412

/-- The `GSStore` configuration: the base URL's host (bucket) and path,
plus the embedded `commonStore` fields (extension, compression type,
overwrite flag). -/
structure GSStoreM where
  host : Str
  basePath : Str
  extension : Str
  compressionType : Str
  overwrite : Bool

/-- Modelled from the spec: `commonStore.pathWithExt` is not under `src/`;
per the spec's Path/Name Codec the key step appends the configured
extension to the name, the empty extension being the identity. -/
def pathWithExt (s : GSStoreM) (base : Str) : Str := base ++ s.extension

/-- `GSStore.ObjectPath` (gsstore.go:58-60). -/
def ObjectPath (s : GSStoreM) (name : Str) : Str :=
  pathJoin (trimLeftSlash s.basePath) (pathWithExt s name)

/-- `GSStore.toBaseName` (gsstore.go:66-68). -/
def toBaseName (s : GSStoreM) (filename : Str) : Str :=
  trimPrefixStr (trimSuffixStr filename (pathWithExt s []))
    (trimLeftSlash s.basePath ++ ['/'])

/-- `GSStore.SubStore` (gsstore.go:45-52): re-parse the base URL (a value
copy), join the sub folder onto its path, and build a new store with the
same host, extension, compression type and overwrite flag. -/
def SubStore (s : GSStoreM) (subFolder : Str) : GSStoreM :=
  { s with basePath := pathJoin s.basePath subFolder }

/-- `silencePreconditionError` (gsstore.go:96-103): a `*googleapi.Error`
with status 412 becomes success; everything else is returned unchanged. -/
def silencePreconditionError : GoErr → Option GoErr
  | GoErr.googleapi code =>
    if code = statusPreconditionFailed then none else some (GoErr.googleapi code)
  | e => some e

/-- `GSStore.WriteObject` (gsstore.go:70-94), with the outcome of
`compressedCopy` and of the backend writer's `Close` passed explicitly:
a copy error is returned as-is; a close error is returned as-is when
overwriting and filtered through `silencePreconditionError` otherwise. -/
def WriteObject (s : GSStoreM) (copyRes closeRes : Option GoErr) : Option GoErr :=
  match copyRes with
  | some e => some e
  | none =>
    match closeRes with
    | some e => if s.overwrite then some e else silencePreconditionError e
    | none => none

/-- `GSStore.OpenObject` (gsstore.go:105-127), with the backend
`NewReader` outcome passed explicitly and `commonStore.uncompressedReader`
abstract: `storage.ErrObjectNotExist` becomes `ErrNotFound`, any other
reader error is returned as-is, and a raw reader is wrapped by the
decompressing reader (the tracer path only adds debug logging). -/
def OpenObject {α β : Type} (newReader : Except GoErr α)
    (uncompressedReader : α → Except GoErr β) : Except GoErr β :=
  match newReader with
  | Except.error e =>
    if e = GoErr.objectNotExist then Except.error GoErr.notFound else Except.error e
  | Except.ok r => uncompressedReader r

/-- `GSStore.DeleteObject` (gsstore.go:129-132), with the backend object
delete operation passed explicitly as a function of the backend key. -/
def DeleteObject (s : GSStoreM) (deleteFn : Str → Option GoErr) (base : Str) : Option GoErr :=
  deleteFn (ObjectPath s base)

/-- `GSStore.FileExists` (gsstore.go:134-146), with the backend `Attrs`
metadata probe passed explicitly as a function of the backend key. -/
def FileExists (s : GSStoreM) (attrs : Str → Option GoErr) (base : Str) : Bool × Option GoErr :=
  match attrs (ObjectPath s base) with
  | some e => if e = GoErr.objectNotExist then (false, none) else (false, some e)
  | none => (true, none)

/-- Modelled from the spec: the storage client's `Objects` listing is an
external collaborator exposing list-with-prefix-and-start-offset; it
yields, in the backend's native order, the bucket keys that carry the
query prefix and, when a start offset is set, are not ordered before it. -/
def gsObjects (bucket : List Str) (qp : Str) (offset : Option Str) : List Str :=
  bucket.filter fun k =>
    hasPrefixStr k qp &&
      match offset with
      | none => true
      | some o => !strLt k o

/-- The query prefix built by `WalkFrom` (gsstore.go:164-174): the base
path (leading slashes stripped) plus a trailing slash; a non-empty caller
prefix is joined onto it, re-appending the trailing slash the join cleans
away when the caller's prefix ends in one. -/
def queryPrefixOf (s : GSStoreM) (pre : Str) : Str :=
  let base := trimLeftSlash s.basePath ++ ['/']
  if pre = [] then base
  else
    let q := filepathJoin base pre
    if pre.getLast? = some '/' then q ++ ['/'] else q

/-- The query start offset built by `WalkFrom` (gsstore.go:175-177): unset
for an empty starting point, otherwise the query prefix joined with the
starting point. -/
def queryStartOf (s : GSStoreM) (pre sp : Str) : Option Str :=
  if sp = [] then none else some (filepathJoin (queryPrefixOf s pre) sp)

/-- The iteration loop of `WalkFrom` (gsstore.go:180-195) over the keys
the backend yields, returning the keys consumed (each passed through
`toBaseName` to the callback) and the final result: a callback error
stops the loop, `StopIteration` being reported as success and any other
callback error as-is. -/
def walkLoop (f : Str → Option GoErr) : List Str → List Str × Option GoErr
  | [] => ([], none)
  | k :: ks =>
    match f k with
    | some e => ([k], if e = GoErr.stopIteration then none else some e)
    | none =>
      let r := walkLoop f ks
      (k :: r.1, r.2)

/-- `GSStore.WalkFrom` (gsstore.go:164-196) over a modelled bucket. -/
def WalkFrom (s : GSStoreM) (bucket : List Str) (pre sp : Str)
    (f : Str → Option GoErr) : List Str × Option GoErr :=
  walkLoop (fun k => f (toBaseName s k))
    (gsObjects bucket (queryPrefixOf s pre) (queryStartOf s pre sp))

/-- `GSStore.Walk` (gsstore.go:160-162): delegates to `WalkFrom` with an
empty starting point. -/
def Walk (s : GSStoreM) (bucket : List Str) (pre : Str)
    (f : Str → Option GoErr) : List Str × Option GoErr :=
  WalkFrom s bucket pre [] f

/-- A sample store over bucket `bkt` with base path `/root`, extension
`.bin`, no compression and overwrite disabled. -/
def sampleStore : GSStoreM := ⟨str ("bkt"), str ("/root"), str (".bin"), [], false⟩

/-- The sample store with overwrite enabled. -/
def sampleStoreOW : GSStoreM := ⟨str ("bkt"), str ("/root"), str (".bin"), [], true⟩

/-- A sample bucket of three keys under the sample store's base path. -/
def walkBucket : List Str := [str ("root/a.bin"), str ("root/b.bin"), str ("root/c.bin")]

/-- A sample visit callback that requests a stop at logical name `b`. -/
def stopAtB : Str → Option GoErr :=
  fun n => if n = str ("b") then some GoErr.stopIteration else none

/-!  Helper lemmas. -/

theorem trimPrefixStr_append (p x : Str) : trimPrefixStr (p ++ x) p = x := by
  have h : hasPrefixStr (p ++ x) p = true := by
    simp [hasPrefixStr, List.isPrefixOf_iff_prefix, List.prefix_append]
  simp [trimPrefixStr, h, List.drop_left]

theorem trimSuffixStr_append (x y : Str) : trimSuffixStr (x ++ y) y = x := by
  have h : hasSuffixStr (x ++ y) y = true := by
    simp [hasSuffixStr, List.isSuffixOf_iff_suffix, List.suffix_append]
  simp only [trimSuffixStr, h, if_true, List.length_append, Nat.add_sub_cancel]
  exact List.take_left x y

theorem walkLoop_visited_mem (f : Str → Option GoErr) :
    ∀ (l : List Str) (k : Str), k ∈ (walkLoop f l).1 → k ∈ l := by
  intro l
  induction l with
  | nil => intro k hk; simp [walkLoop] at hk
  | cons a as ih =>
    intro k hk
    rw [walkLoop] at hk
    cases hfa : f a with
    | some e =>
      rw [hfa] at hk
      simp at hk
      simp [hk]
    | none =>
      rw [hfa] at hk
      simp at hk
      rcases hk with h | h
      · simp [h]
      · exact List.mem_cons_of_mem a (ih k h)

theorem walkLoop_split (f : Str → Option GoErr) (ks1 : List Str) (k : Str)
    (ks2 : List Str) (e : GoErr) (h1 : ∀ x ∈ ks1, f x = none) (hk : f k = some e) :
    walkLoop f (ks1 ++ k :: ks2) =
      (ks1 ++ [k], if e = GoErr.stopIteration then none else some e) := by
  induction ks1 with
  | nil => simp [walkLoop, hk]
  | cons a as ih =>
    have ha : f a = none := h1 a (by simp)
    have ih2 := ih (fun x hx => h1 x (List.mem_cons_of_mem a hx))
    simp only [List.cons_append, walkLoop, ha, List.append_eq, ih2]

/-!  Claim theorems. -/

/-- C1: with overwrite disabled, a close failure that is a
`*googleapi.Error` with HTTP status 412 (precondition violated, the key
already exists) makes `WriteObject` return success as a no-op; any other
close error, and every close error with overwrite enabled, is returned
unchanged. -/
theorem writeObject_silences_precondition (s : GSStoreM) :
    (s.overwrite = false →
      WriteObject s none (some (GoErr.googleapi statusPreconditionFailed)) = none) ∧
    (s.overwrite = false → ∀ e : GoErr, e ≠ GoErr.googleapi statusPreconditionFailed →
      WriteObject s none (some e) = some e) ∧
    (s.overwrite = true → ∀ e : GoErr, WriteObject s none (some e) = some e) := by
  refine ⟨fun h => ?_, fun h e he => ?_, fun h e => ?_⟩
  · simp [WriteObject, h, silencePreconditionError]
  · cases e with
    | googleapi c =>
      have hc : c ≠ statusPreconditionFailed := fun hc => he (by rw [hc])
      simp [WriteObject, h, silencePreconditionError, hc]
    | stopIteration => simp [WriteObject, h, silencePreconditionError]
    | notFound => simp [WriteObject, h, silencePreconditionError]
    | objectNotExist => simp [WriteObject, h, silencePreconditionError]
    | other m => simp [WriteObject, h, silencePreconditionError]
  · simp [WriteObject, h]

/-- Witness for C1 at the sample stores. -/
theorem writeObject_silences_precondition_witness :
    WriteObject sampleStore none (some (GoErr.googleapi statusPreconditionFailed)) = none ∧
    WriteObject sampleStore none (some GoErr.objectNotExist) = some GoErr.objectNotExist ∧
    WriteObject sampleStoreOW none (some (GoErr.googleapi statusPreconditionFailed)) =
      some (GoErr.googleapi statusPreconditionFailed) :=
  ⟨(writeObject_silences_precondition sampleStore).1 rfl,
   (writeObject_silences_precondition sampleStore).2.1 rfl GoErr.objectNotExist (by decide),
   (writeObject_silences_precondition sampleStoreOW).2.2 rfl
     (GoErr.googleapi statusPreconditionFailed)⟩

/-- C2 counterexample: for the store with base path `/root` and extension
`.bin`, the name `a/./b` yields the key `root/a/b.bin`, which lies under
the base location and carries the extension, yet `toBaseName` gives back
`a/b`, not `a/./b` — the join's path cleaning collapsed the dot segment. -/
theorem objectPath_roundtrip_counterexample :
    hasPrefixStr (ObjectPath sampleStore (str ("a/./b")))
      (trimLeftSlash sampleStore.basePath ++ ['/']) = true ∧
    hasSuffixStr (ObjectPath sampleStore (str ("a/./b"))) sampleStore.extension = true ∧
    toBaseName sampleStore (ObjectPath sampleStore (str ("a/./b"))) ≠ str ("a/./b") := by
  decide

/-- C2 (amended): `toBaseName` recovers the name from `ObjectPath`'s key
whenever that key is literally the base path (leading separators
stripped), a separator, the name, and the configured extension — that is,
whenever the join's path cleaning left the joined key unchanged. -/
theorem objectPath_toBaseName_roundtrip (s : GSStoreM) (n : Str)
    (h : ObjectPath s n = trimLeftSlash s.basePath ++ '/' :: (n ++ s.extension)) :
    toBaseName s (ObjectPath s n) = n := by
  rw [h]
  have e1 : trimLeftSlash s.basePath ++ '/' :: (n ++ s.extension)
      = ((trimLeftSlash s.basePath ++ ['/']) ++ n) ++ s.extension := by
    simp
  rw [e1]
  unfold toBaseName pathWithExt
  rw [List.nil_append, trimSuffixStr_append, trimPrefixStr_append]

/-- Witness for C2's amended round trip at the sample store. -/
theorem objectPath_toBaseName_roundtrip_witness :
    ObjectPath sampleStore (str ("a/b")) =
      trimLeftSlash sampleStore.basePath ++ '/' :: (str ("a/b") ++ sampleStore.extension) ∧
    toBaseName sampleStore (ObjectPath sampleStore (str ("a/b"))) = str ("a/b") :=
  ⟨by decide, objectPath_toBaseName_roundtrip sampleStore (str ("a/b")) (by decide)⟩

/-- C6: `OpenObject` maps the backend's object-not-exist sentinel to the
repository's `ErrNotFound` sentinel, and returns any other reader-opening
error as-is. -/
theorem openObject_notFound {α β : Type} (u : α → Except GoErr β) :
    (OpenObject (Except.error GoErr.objectNotExist) u = Except.error GoErr.notFound) ∧
    (∀ e : GoErr, e ≠ GoErr.objectNotExist →
      OpenObject (Except.error e) u = Except.error e) := by
  refine ⟨by simp [OpenObject], fun e he => by simp [OpenObject, he]⟩

/-- Witness for C6 with a trivial decompressing reader. -/
theorem openObject_notFound_witness :
    OpenObject (Except.error GoErr.objectNotExist) (fun r : Unit => Except.ok r) =
      Except.error GoErr.notFound ∧
    OpenObject (Except.error (GoErr.other [])) (fun r : Unit => Except.ok r) =
      Except.error (GoErr.other []) :=
  ⟨(openObject_notFound (fun r : Unit => Except.ok r)).1,
   (openObject_notFound (fun r : Unit => Except.ok r)).2 (GoErr.other []) (by decide)⟩

/-- C7: `FileExists` returns `(false, nil)` when the metadata probe reports
object-not-exist, `(true, nil)` when it succeeds, and `(false, err)` for
any other probe error. -/
theorem fileExists_error_mapping (s : GSStoreM) (attrs : Str → Option GoErr) (base : Str) :
    (attrs (ObjectPath s base) = some GoErr.objectNotExist →
      FileExists s attrs base = (false, none)) ∧
    (attrs (ObjectPath s base) = none → FileExists s attrs base = (true, none)) ∧
    (∀ e : GoErr, e ≠ GoErr.objectNotExist → attrs (ObjectPath s base) = some e →
      FileExists s attrs base = (false, some e)) :=
  ⟨fun h => by simp [FileExists, h],
   fun h => by simp [FileExists, h],
   fun e he h => by simp [FileExists, h, he]⟩

/-- Witness for C7 at the sample store under three probe outcomes. -/
theorem fileExists_error_mapping_witness :
    FileExists sampleStore (fun _ => some GoErr.objectNotExist) [] = (false, none) ∧
    FileExists sampleStore (fun _ => none) [] = (true, none) ∧
    FileExists sampleStore (fun _ => some (GoErr.other [])) [] =
      (false, some (GoErr.other [])) :=
  ⟨(fileExists_error_mapping sampleStore (fun _ => some GoErr.objectNotExist) []).1 rfl,
   (fileExists_error_mapping sampleStore (fun _ => none) []).2.1 rfl,
   (fileExists_error_mapping sampleStore (fun _ => some (GoErr.other [])) []).2.2
     (GoErr.other []) (by decide) rfl⟩

/-- C8: `DeleteObject` forwards the backend delete result unchanged; in
particular a backend object-not-exist error is returned, not silenced. -/
theorem deleteObject_forwards (s : GSStoreM) (deleteFn : Str → Option GoErr) (base : Str) :
    (deleteFn (ObjectPath s base) = some GoErr.objectNotExist →
      DeleteObject s deleteFn base = some GoErr.objectNotExist) ∧
    DeleteObject s deleteFn base = deleteFn (ObjectPath s base) :=
  ⟨fun h => h, rfl⟩

/-- Witness for C8 at the sample store with an absent object. -/
theorem deleteObject_forwards_witness :
    DeleteObject sampleStore (fun _ => some GoErr.objectNotExist) [] =
      some GoErr.objectNotExist :=
  (deleteObject_forwards sampleStore (fun _ => some GoErr.objectNotExist) []).1 rfl

/-- C9: `SubStore` yields a store whose base path is the parent's base
path joined with the relative segment, with the host, extension,
compression scheme and overwrite flag unchanged; the parent is a pure
value and is left untouched. -/
theorem subStore_config (s : GSStoreM) (x : Str) :
    (SubStore s x).basePath = pathJoin s.basePath x ∧
    (SubStore s x).extension = s.extension ∧
    (SubStore s x).compressionType = s.compressionType ∧
    (SubStore s x).overwrite = s.overwrite ∧
    (SubStore s x).host = s.host :=
  ⟨rfl, rfl, rfl, rfl, rfl⟩

/-- C3: when the keys the backend yields split as `ks1 ++ k :: ks2` with
the callback succeeding on every name from `ks1`, a `StopIteration` from
the callback at `k` ends the walk right there — exactly the keys
`ks1 ++ [k]` are consumed — with a `nil` result, while any other callback
error at `k` ends it there with that error returned as-is. -/
theorem walkFrom_stop_and_error (s : GSStoreM) (bucket : List Str) (pre sp : Str)
    (f : Str → Option GoErr) (ks1 : List Str) (k : Str) (ks2 : List Str)
    (hq : gsObjects bucket (queryPrefixOf s pre) (queryStartOf s pre sp) = ks1 ++ k :: ks2)
    (h1 : ∀ x ∈ ks1, f (toBaseName s x) = none) :
    (f (toBaseName s k) = some GoErr.stopIteration →
      WalkFrom s bucket pre sp f = (ks1 ++ [k], none)) ∧
    (∀ e : GoErr, e ≠ GoErr.stopIteration → f (toBaseName s k) = some e →
      WalkFrom s bucket pre sp f = (ks1 ++ [k], some e)) := by
  constructor
  · intro hk
    unfold WalkFrom
    rw [hq, walkLoop_split _ ks1 k ks2 _ h1 hk]
    simp
  · intro e he hk
    unfold WalkFrom
    rw [hq, walkLoop_split _ ks1 k ks2 _ h1 hk]
    simp [he]

/-- Witness for C3: over the sample bucket, a stop requested at the second
name consumes exactly the first two keys and reports success. -/
theorem walkFrom_stop_and_error_witness :
    WalkFrom sampleStore walkBucket [] [] stopAtB =
      ([str ("root/a.bin")] ++ [str ("root/b.bin")], none) :=
  (walkFrom_stop_and_error sampleStore walkBucket [] [] stopAtB
      [str ("root/a.bin")] (str ("root/b.bin")) [str ("root/c.bin")]
      (by decide) (by decide)).1 (by decide)

/-- C4: every key the walk consumes carries the effective query prefix;
an empty caller prefix makes that scope the whole base location (base
path plus trailing separator); a non-empty caller prefix makes the scope
begin with the base location joined with that prefix; and a caller prefix
ending in a separator keeps the trailing separator in the query prefix. -/
theorem walkFrom_scope (s : GSStoreM) (bucket : List Str) (pre sp : Str)
    (f : Str → Option GoErr) :
    (∀ k ∈ (WalkFrom s bucket pre sp f).1, hasPrefixStr k (queryPrefixOf s pre) = true) ∧
    (pre = [] → queryPrefixOf s pre = trimLeftSlash s.basePath ++ ['/']) ∧
    (pre ≠ [] → hasPrefixStr (queryPrefixOf s pre)
      (filepathJoin (trimLeftSlash s.basePath ++ ['/']) pre) = true) ∧
    (pre.getLast? = some '/' → (queryPrefixOf s pre).getLast? = some '/') := by
  refine ⟨fun k hk => ?_, fun h => by simp [queryPrefixOf, h], fun h => ?_, fun hl => ?_⟩
  · have hm := walkLoop_visited_mem _ _ k hk
    have hc := (List.mem_filter.mp hm).2
    exact (Bool.and_eq_true_iff.mp hc).1
  · by_cases hl : pre.getLast? = some '/'
    · simp [queryPrefixOf, h, hl, hasPrefixStr, List.isPrefixOf_iff_prefix,
        List.prefix_append]
    · simp [queryPrefixOf, h, hl, hasPrefixStr, List.isPrefixOf_iff_prefix]
  · have hne : pre ≠ [] := by
      intro h
      rw [h] at hl
      simp at hl
    simp only [queryPrefixOf, if_neg hne, hl, if_true]
    exact List.getLast?_concat _

/-- Witness for C4 at the sample store with caller prefix `p/`. -/
theorem walkFrom_scope_witness :
    hasPrefixStr (str ("root/p/x.bin")) (queryPrefixOf sampleStore (str ("p/"))) = true ∧
    queryPrefixOf sampleStore [] = trimLeftSlash sampleStore.basePath ++ ['/'] ∧
    hasPrefixStr (queryPrefixOf sampleStore (str ("p/")))
      (filepathJoin (trimLeftSlash sampleStore.basePath ++ ['/']) (str ("p/"))) = true ∧
    (queryPrefixOf sampleStore (str ("p/"))).getLast? = some '/' :=
  ⟨(walkFrom_scope sampleStore [str ("root/p/x.bin")] (str ("p/")) [] (fun _ => none)).1
      (str ("root/p/x.bin")) (by decide),
   (walkFrom_scope sampleStore [] [] [] (fun _ => none)).2.1 rfl,
   (walkFrom_scope sampleStore [] (str ("p/")) [] (fun _ => none)).2.2.1 (by decide),
   (walkFrom_scope sampleStore [] (str ("p/")) [] (fun _ => none)).2.2.2 (by decide)⟩

/-- C5: a non-empty starting point is joined onto the effective query
prefix and set as the query's start offset, and no key ordered before
that bound in the backend's key order is consumed by the walk. -/
theorem walkFrom_startingPoint_bound (s : GSStoreM) (bucket : List Str) (pre sp : Str)
    (f : Str → Option GoErr) (hsp : sp ≠ []) :
    queryStartOf s pre sp = some (filepathJoin (queryPrefixOf s pre) sp) ∧
    ∀ k ∈ (WalkFrom s bucket pre sp f).1,
      strLt k (filepathJoin (queryPrefixOf s pre) sp) = false := by
  have hq : queryStartOf s pre sp = some (filepathJoin (queryPrefixOf s pre) sp) := by
    simp [queryStartOf, hsp]
  refine ⟨hq, fun k hk => ?_⟩
  unfold WalkFrom at hk
  have hm := walkLoop_visited_mem _ _ k hk
  rw [hq] at hm
  have hc := (List.mem_filter.mp hm).2
  have hb := (Bool.and_eq_true_iff.mp hc).2
  simpa using hb

/-- Witness for C5: resuming the sample bucket at starting point `b`
bounds the walk at key `root/b`, and the consumed key `root/b.bin` is not
ordered before it. -/
theorem walkFrom_startingPoint_bound_witness :
    queryStartOf sampleStore [] (str ("b")) =
      some (filepathJoin (queryPrefixOf sampleStore []) (str ("b"))) ∧
    strLt (str ("root/b.bin")) (filepathJoin (queryPrefixOf sampleStore []) (str ("b"))) =
      false := by
  have h := walkFrom_startingPoint_bound sampleStore walkBucket [] (str ("b"))
    (fun _ => none) (by decide)
  exact ⟨h.1, h.2 (str ("root/b.bin")) (by decide)⟩

/-- C10: `Walk` is exactly `WalkFrom` with an empty starting point, and an
empty starting point leaves the backend query with no start offset, so
the listing is filtered by the query prefix alone. -/
theorem walk_eq_walkFrom_empty (s : GSStoreM) (bucket : List Str) (pre : Str)
    (f : Str → Option GoErr) :
    Walk s bucket pre f = WalkFrom s bucket pre [] f ∧
    gsObjects bucket (queryPrefixOf s pre) (queryStartOf s pre []) =
      bucket.filter (fun k => hasPrefixStr k (queryPrefixOf s pre)) := by
  refine ⟨rfl, ?_⟩
  simp [gsObjects, queryStartOf]

end DStore
